import Mathlib

/-!
Verification of the reminder scheduler subsystem of a habit-tracking
backend.  The embedding covers:

* the `nextSendTime` virtual of the Reminder model (recurrence resolver),
* the in-memory job registry (`reminderJobs` map) together with
  `scheduleReminder`, `cancelReminderSchedule`, the delete route handler
  and the timer fire callback from the reminders route module.

Instants are modelled as natural numbers: milliseconds since the Unix
epoch, in a fixed-offset (no DST) clock, exactly the arithmetic JS `Date`
performs for a UTC server.  Day 0 (1970-01-01) is a Thursday, so the JS
`getDay` of an instant `t` is `(t / msPerDay + 4) % 7`.
-/

def msPerDay : Nat := 86400000

def msPerHour : Nat := 3600000

def msPerMinute : Nat := 60000

/-- JS `d.getDay()`: day of week, 0 = Sunday .. 6 = Saturday. -/
def getDayOfWeek (t : Nat) : Nat := (t / msPerDay + 4) % 7

/-- JS `d.setHours(h, m, 0, 0)`: keep the calendar day of `t`, set the
wall-clock time to `h:m:00.000`. -/
def setHours (t h m : Nat) : Nat := t / msPerDay * msPerDay + h * msPerHour + m * msPerMinute

/-- Wall-clock hour of an instant (JS `getHours`). -/
def getHoursOf (t : Nat) : Nat := t % msPerDay / msPerHour

/-- Wall-clock minute of an instant (JS `getMinutes`). -/
def getMinutesOf (t : Nat) : Nat := t % msPerHour / msPerMinute

/-- Wall-clock second of an instant (JS `getSeconds`). -/
def getSecondsOf (t : Nat) : Nat := t % msPerMinute / 1000

/-- Millisecond component of an instant (JS `getMilliseconds`). -/
def getMillisecondsOf (t : Nat) : Nat := t % 1000

/-- The `frequency` enum of the Reminder schema. -/
inductive Frequency where
  | once
  | daily
  | weekly
  | monthly
  | custom
deriving DecidableEq

/-- The `time` subdocument of the Reminder schema: hour 0-23, minute 0-59
(bounds enforced by the schema and the route validators). -/
structure TimeOfDay where
  hour : Nat
  minute : Nat
deriving DecidableEq

/-- The scheduling-relevant fields of the Reminder schema.  Display-only
fields (title, message, type, notificationSettings, metadata) and the
owner/habit references do not influence the scheduling logic and are
omitted. -/
structure Reminder where
  isActive : Bool
  frequency : Frequency
  daysOfWeek : List Nat
  time : TimeOfDay
  startDate : Nat
  endDate : Option Nat
  lastSent : Option Nat
deriving DecidableEq

/-- The `while` loop of the weekly branch of the `nextSendTime` virtual:

    let dayAdded = 0;
    while (!this.daysOfWeek.includes(nextDate.getDay())) {
      nextDate.setDate(nextDate.getDate() + 1);
      dayAdded++;
      if (dayAdded > 7) break;
    }

written with the remaining loop budget as explicit fuel: the loop body can
run at most 8 times (`dayAdded` reaching 8 forces the break), so the loop
entered with `dayAdded = 0` is `weeklyAdvance days t 7`: fuel
`7 - dayAdded` remaining recursive steps before the forced break. -/
def weeklyAdvance (days : List Nat) (t : Nat) : Nat → Nat
  | 0 => if days.contains (getDayOfWeek t) then t else t + msPerDay
  | fuel + 1 =>
      if days.contains (getDayOfWeek t) then t
      else weeklyAdvance days (t + msPerDay) fuel

/-- The `nextSendTime` virtual of the Reminder model:

    if (!this.isActive) return null;
    const now = new Date();
    const nextDate = new Date();
    nextDate.setHours(this.time.hour, this.time.minute, 0, 0);
    if (nextDate < now) nextDate.setDate(nextDate.getDate() + 1);
    if (this.frequency === 'weekly' && this.daysOfWeek.length > 0) { ...loop... }
    return nextDate;

The two `new Date()` calls are the same instant `now`.  Note the virtual
consults neither `endDate`, nor `startDate`, nor `lastSent`, nor any
frequency other than `weekly`. -/
def nextSendTime (r : Reminder) (now : Nat) : Option Nat :=
  if r.isActive = false then none
  else
    let nd0 := setHours now r.time.hour r.time.minute
    let nd1 := if nd0 < now then nd0 + msPerDay else nd0
    let nd2 :=
      if r.frequency = Frequency.weekly ∧ 0 < r.daysOfWeek.length then
        weeklyAdvance r.daysOfWeek nd1 7
      else nd1
    some nd2

example : nextSendTime ⟨true, Frequency.daily, [], ⟨9, 0⟩, 0, none, none⟩ 0 = some 32400000 := by
  decide

example : nextSendTime ⟨false, Frequency.daily, [], ⟨9, 0⟩, 0, none, none⟩ 0 = none := by
  decide

/-!
The scheduler of the reminders route module.  Reminder identifiers
(`reminder._id.toString()`) are modelled as naturals.  A `node-schedule`
timer handle is a `SchedJob`; the `jobId` is the identity of the handle
object, `fireAt` the instant it was scheduled for.  The mutable module
state is the `reminderJobs` map together with the set of created and not
yet cancelled timers (`live`); `nextJobId` is a fresh-name supply for
handle identities.
-/

/-- A timer handle created by `schedule.scheduleJob`. -/
structure SchedJob where
  jobId : Nat
  reminderId : Nat
  fireAt : Nat
deriving DecidableEq

/-- The in-memory scheduler state of the reminders route module:
`jobsMap` is the `reminderJobs` Map, `live` the timers that have been
created and not cancelled, `nextJobId` the next fresh handle identity. -/
structure SchedulerState where
  jobsMap : Nat → Option Nat
  live : List SchedJob
  nextJobId : Nat

/-- `cancelReminderSchedule(reminderId)`: if the map holds a handle for
the id, cancel that timer and delete the map entry; otherwise no-op. -/
def cancelReminderSchedule (s : SchedulerState) (rid : Nat) : SchedulerState :=
  match s.jobsMap rid with
  | none => s
  | some j =>
      { jobsMap := fun x => if x = rid then none else s.jobsMap x,
        live := s.live.filter (fun jb => jb.jobId ≠ j),
        nextJobId := s.nextJobId }

/-- `scheduleReminder(reminder)`: cancel any existing job for the id,
then, if the reminder is active and has a next send time, create a fresh
timer for that instant and store its handle in the map.  Timer creation
is modelled as always succeeding (the computed instant is never in the
past, so `schedule.scheduleJob` returns a handle and the `if (job)` guard
passes). -/
def scheduleReminder (s : SchedulerState) (r : Reminder) (rid now : Nat) : SchedulerState :=
  let s1 := cancelReminderSchedule s rid
  if r.isActive = false then s1
  else
    match nextSendTime r now with
    | none => s1
    | some fireAt =>
        { jobsMap := fun x => if x = rid then some s1.nextJobId else s1.jobsMap x,
          live := ⟨s1.nextJobId, rid, fireAt⟩ :: s1.live,
          nextJobId := s1.nextJobId + 1 }

/-- `reminderJobs.has(id)`, the `isScheduled` flag reported to API
callers. -/
def hasJob (s : SchedulerState) (rid : Nat) : Bool := (s.jobsMap rid).isSome

/-- The live (created and not cancelled) timers registered for a given
reminder id. -/
def liveFor (s : SchedulerState) (rid : Nat) : List SchedJob :=
  s.live.filter (fun jb => jb.reminderId = rid)

/-- Consistency of the scheduler state, established by starting from the
empty state and maintained by every operation: every live timer is the
one its reminder id maps to, handle identities are below the fresh
supply, and no two live timers share a handle identity. -/
def WellFormed (s : SchedulerState) : Prop :=
  (∀ jb ∈ s.live, s.jobsMap jb.reminderId = some jb.jobId) ∧
  (∀ jb ∈ s.live, jb.jobId < s.nextJobId) ∧
  s.live.Pairwise (fun a b => a.jobId ≠ b.jobId)

/-- The DELETE /api/reminders/:id handler, scheduling-relevant part: look
the reminder up (404 when absent), cancel its schedule, then remove the
storage record. -/
def deleteReminderHandler (s : SchedulerState) (store : Nat → Option Reminder)
    (rid : Nat) : SchedulerState × (Nat → Option Reminder) :=
  match store rid with
  | none => (s, store)
  | some _ =>
      (cancelReminderSchedule s rid, fun x => if x = rid then none else store x)

/-- Outcome of one run of the timer fire callback: the scheduler state
and storage after the callback, and whether the catch branch ran
(`logger.error`). -/
structure FireResult where
  sched : SchedulerState
  store : Nat → Option Reminder
  errorLogged : Bool

/-- The fire callback installed by `scheduleReminder`:

    try {
      await sendReminder(reminder);
      await Reminder.findByIdAndUpdate(reminderId, { $set: { lastSent: new Date() } });
      if (reminder.frequency !== 'once') {
        const updatedReminder = await Reminder.findById(reminderId);
        if (updatedReminder && updatedReminder.isActive) {
          scheduleReminder(updatedReminder);
        }
      }
    } catch (error) { logger.error(...); }

`sendOk` is the outcome of the Sender call `sendReminder(reminder)`
(false = it threw); `r` is the reminder captured by the closure, `now`
the instant the callback runs. -/
def fireCallback (s : SchedulerState) (store : Nat → Option Reminder) (r : Reminder)
    (rid : Nat) (sendOk : Bool) (now : Nat) : FireResult :=
  if sendOk then
    let store1 := fun x =>
      if x = rid then (store rid).map (fun q => { q with lastSent := some now })
      else store x
    if r.frequency ≠ Frequency.once then
      match store1 rid with
      | some u => if u.isActive then ⟨scheduleReminder s u rid now, store1, false⟩
                  else ⟨s, store1, false⟩
      | none => ⟨s, store1, false⟩
    else ⟨s, store1, false⟩
  else ⟨s, store, true⟩

/-!
Helper lemmas shared by the claim theorems.
-/

theorem weeklyAdvance_eq_add (days : List Nat) :
    ∀ fuel t, ∃ k, weeklyAdvance days t fuel = t + k * msPerDay := by
  intro fuel
  induction fuel with
  | zero =>
      intro t
      by_cases h : days.contains (getDayOfWeek t)
      · exact ⟨0, by unfold weeklyAdvance; rw [if_pos h]; ring⟩
      · exact ⟨1, by unfold weeklyAdvance; rw [if_neg h]; ring⟩
  | succ n ih =>
      intro t
      by_cases h : days.contains (getDayOfWeek t)
      · exact ⟨0, by unfold weeklyAdvance; rw [if_pos h]; ring⟩
      · obtain ⟨k, hk⟩ := ih (t + msPerDay)
        refine ⟨k + 1, ?_⟩
        unfold weeklyAdvance
        rw [if_neg h, hk]
        ring

theorem cancelReminderSchedule_jobsMap_self (s : SchedulerState) (rid : Nat) :
    (cancelReminderSchedule s rid).jobsMap rid = none := by
  unfold cancelReminderSchedule
  cases h : s.jobsMap rid with
  | none => simpa using h
  | some j => simp

theorem cancelReminderSchedule_liveFor (s : SchedulerState) (rid : Nat)
    (hwf : ∀ jb ∈ s.live, s.jobsMap jb.reminderId = some jb.jobId) :
    liveFor (cancelReminderSchedule s rid) rid = [] := by
  unfold cancelReminderSchedule liveFor
  cases h : s.jobsMap rid with
  | none =>
      simp only [List.filter_eq_nil_iff, decide_eq_true_eq]
      intro jb hjb heq
      have hmap := hwf jb hjb
      rw [heq, h] at hmap
      exact Option.noConfusion hmap
  | some j =>
      simp only [List.filter_eq_nil_iff, List.mem_filter, decide_eq_true_eq, ne_eq,
        decide_not, Bool.not_eq_true', decide_eq_false_iff_not, and_imp]
      intro jb hjb hne heq
      have hmap := hwf jb hjb
      rw [heq, h] at hmap
      exact hne (Option.some.inj hmap).symm

theorem cancelReminderSchedule_wf (s : SchedulerState) (rid : Nat)
    (hwf : WellFormed s) : WellFormed (cancelReminderSchedule s rid) := by
  obtain ⟨h1, h2, h3⟩ := hwf
  unfold cancelReminderSchedule
  cases h : s.jobsMap rid with
  | none => exact ⟨h1, h2, h3⟩
  | some j =>
      refine ⟨?_, ?_, ?_⟩
      · intro jb hjb
        rw [List.mem_filter] at hjb
        obtain ⟨hmem, hne⟩ := hjb
        simp only [ne_eq, decide_not, Bool.not_eq_true', decide_eq_false_iff_not] at hne
        have hmap := h1 jb hmem
        have hrid : jb.reminderId ≠ rid := by
          intro heq
          rw [heq, h] at hmap
          exact hne (Option.some.inj hmap).symm
        simpa [hrid] using hmap
      · intro jb hjb
        rw [List.mem_filter] at hjb
        exact h2 jb hjb.1
      · exact h3.sublist (List.filter_sublist s.live)

theorem scheduleReminder_active (s : SchedulerState) (r : Reminder) (rid now : Nat)
    (hwf : WellFormed s) (hact : r.isActive = true) :
    WellFormed (scheduleReminder s r rid now) ∧
    (liveFor (scheduleReminder s r rid now) rid).length = 1 ∧
    hasJob (scheduleReminder s r rid now) rid = true := by
  have hwf1 := cancelReminderSchedule_wf s rid hwf
  have hliv1 := cancelReminderSchedule_liveFor s rid hwf.1
  obtain ⟨g1, g2, g3⟩ := hwf1
  have hns : ∃ nd, nextSendTime r now = some nd := by
    simp only [nextSendTime, hact, Bool.true_eq_false, if_false]
    exact ⟨_, rfl⟩
  obtain ⟨nd, hnd⟩ := hns
  have hnone : ∀ jb ∈ (cancelReminderSchedule s rid).live, jb.reminderId ≠ rid := by
    intro jb hjb heq
    have : jb ∈ liveFor (cancelReminderSchedule s rid) rid := by
      rw [liveFor, List.mem_filter]
      exact ⟨hjb, by simpa using heq⟩
    rw [hliv1] at this
    exact List.not_mem_nil jb this
  unfold scheduleReminder
  rw [hact, hnd]
  simp only [Bool.true_eq_false, if_false]
  refine ⟨⟨?_, ?_, ?_⟩, ?_, ?_⟩
  · intro jb hjb
    rcases List.mem_cons.mp hjb with hnew | hold
    · subst hnew; simp
    · have hrid := hnone jb hold
      simp only [hrid, if_false]
      exact g1 jb hold
  · intro jb hjb
    rcases List.mem_cons.mp hjb with hnew | hold
    · subst hnew; simp
    · exact Nat.lt_succ_of_lt (g2 jb hold)
  · rw [List.pairwise_cons]
    refine ⟨?_, g3⟩
    intro jb hold
    have := g2 jb hold
    simp only [ne_eq]
    omega
  · unfold liveFor at hliv1 ⊢
    rw [List.filter_cons, if_pos (by simp), hliv1]
    rfl
  · simp [hasJob]

theorem nextSendTime_aligned_aux (now t hour minute c : Nat) (hh : hour ≤ 23)
    (hm : minute ≤ 59)
    (heq : t = now / msPerDay * msPerDay + (hour * msPerHour + minute * msPerMinute) +
      c * msPerDay)
    (hc : now ≤ now / msPerDay * msPerDay + (hour * msPerHour + minute * msPerMinute) ∨ 1 ≤ c) :
    now ≤ t ∧ getHoursOf t = hour ∧ getMinutesOf t = minute ∧
    getSecondsOf t = 0 ∧ getMillisecondsOf t = 0 := by
  subst heq
  unfold getHoursOf getMinutesOf getSecondsOf getMillisecondsOf msPerDay msPerHour
    msPerMinute at *
  omega

/-!
Claim theorems.
-/

/-- C8: for every reminder with `isActive = false`, the next-fire
computation `nextSendTime` returns null. -/
theorem nextSendTime_inactive (r : Reminder) (now : Nat) (h : r.isActive = false) :
    nextSendTime r now = none := by
  simp [nextSendTime, h]

theorem nextSendTime_inactive_witness :
    (⟨false, Frequency.daily, [], ⟨9, 0⟩, 0, none, none⟩ : Reminder).isActive = false ∧
    nextSendTime ⟨false, Frequency.daily, [], ⟨9, 0⟩, 0, none, none⟩ 0 = none :=
  ⟨rfl, nextSendTime_inactive ⟨false, Frequency.daily, [], ⟨9, 0⟩, 0, none, none⟩ 0 rfl⟩

/-- C7: for a weekly reminder with `daysOfWeek = [1, 3, 5]` and time of
day 9:00, when now is any Thursday at 10:00 (day index `d` with
`(d + 4) % 7 = 4`), `nextSendTime` returns the following Friday at
9:00. -/
theorem nextSendTime_weekly_thursday (r : Reminder) (d : Nat)
    (hact : r.isActive = true) (hfreq : r.frequency = Frequency.weekly)
    (hdays : r.daysOfWeek = [1, 3, 5]) (htime : r.time = ⟨9, 0⟩)
    (hd : (d + 4) % 7 = 4) :
    nextSendTime r (d * msPerDay + 10 * msPerHour) =
      some ((d + 1) * msPerDay + 9 * msPerHour) := by
  have hnow9 : setHours (d * msPerDay + 10 * msPerHour) 9 0 = d * msPerDay + 9 * msPerHour := by
    unfold setHours msPerDay msPerHour msPerMinute
    omega
  have hlt : d * msPerDay + 9 * msPerHour < d * msPerDay + 10 * msPerHour := by
    unfold msPerDay msPerHour
    omega
  have hget : getDayOfWeek (d * msPerDay + 9 * msPerHour + msPerDay) = 5 := by
    unfold getDayOfWeek msPerDay msPerHour
    omega
  unfold nextSendTime
  rw [hact]
  simp only [Bool.true_eq_false, if_false, htime, hfreq, hdays]
  rw [hnow9, if_pos hlt]
  rw [if_pos (by simp)]
  unfold weeklyAdvance
  rw [hget]
  rw [if_pos (by decide)]
  exact congrArg some (by ring)

theorem nextSendTime_weekly_thursday_witness :
    nextSendTime ⟨true, Frequency.weekly, [1, 3, 5], ⟨9, 0⟩, 0, none, none⟩
      (0 * msPerDay + 10 * msPerHour) = some ((0 + 1) * msPerDay + 9 * msPerHour) :=
  nextSendTime_weekly_thursday ⟨true, Frequency.weekly, [1, 3, 5], ⟨9, 0⟩, 0, none, none⟩ 0
    rfl rfl rfl rfl (by decide)

/-- C2 (code bug): the `nextSendTime` virtual never consults `endDate`.
For an active daily reminder whose `endDate` (1970-01-02, ms 86400000)
is long before now (1970-01-10 01:00, ms 781200000), the code still
returns the next instant 1970-01-10 08:00 (ms 806400000) instead of
null. -/
theorem nextSendTime_ignores_endDate :
    (⟨true, Frequency.daily, [], ⟨8, 0⟩, 0, some 86400000, none⟩ : Reminder).endDate =
      some 86400000 ∧
    86400000 < 781200000 ∧
    nextSendTime ⟨true, Frequency.daily, [], ⟨8, 0⟩, 0, some 86400000, none⟩ 781200000 =
      some 806400000 := by
  refine ⟨rfl, by omega, by decide⟩

/-- C3 (code bug): the `nextSendTime` virtual never consults `lastSent`
or the `once` frequency.  For an active once reminder that has already
fired (`lastSent = some 100`), the code still returns a next send
instant instead of null, so the reminder would be scheduled to fire
again (for example by the bootstrap loader). -/
theorem nextSendTime_once_after_fired :
    (⟨true, Frequency.once, [], ⟨8, 0⟩, 0, none, some 100⟩ : Reminder).lastSent = some 100 ∧
    nextSendTime ⟨true, Frequency.once, [], ⟨8, 0⟩, 0, none, some 100⟩ 781200000 =
      some 806400000 := by
  refine ⟨rfl, by decide⟩

/-- C4 counterexample: custom is not resolved like weekly.  Two
reminders identical except for frequency (custom vs weekly), with
`daysOfWeek = [2]` and time 9:00, give different next instants on a
Thursday at 10:00: the custom one fires Friday, the weekly one the next
Tuesday. -/
theorem nextSendTime_custom_ne_weekly :
    nextSendTime ⟨true, Frequency.custom, [2], ⟨9, 0⟩, 0, none, none⟩ 36000000 ≠
      nextSendTime ⟨true, Frequency.weekly, [2], ⟨9, 0⟩, 0, none, none⟩ 36000000 := by
  decide

/-- C4 (amended): frequency custom is resolved identically to daily, not
weekly: the `daysOfWeek` filter runs only when the frequency is exactly
weekly, so a custom reminder behaves exactly like a daily one. -/
theorem nextSendTime_custom_eq_daily (r : Reminder) (now : Nat) :
    nextSendTime { r with frequency := Frequency.custom } now =
      nextSendTime { r with frequency := Frequency.daily } now := by
  simp [nextSendTime]

/-- C1 counterexample: a failed Sender call is caught and logged, but
contrary to the claim the attempt is not recorded and no next timer is
installed.  Concrete input: empty scheduler state, storage holding the
recurring (daily) reminder under id 1 with `lastSent = none`, the fire
callback running at instant 5000 with the send throwing.  Afterwards the
stored reminder still has `lastSent = none` (not `some 5000`) and no
live timer exists for id 1. -/
theorem fireCallback_failure_counterexample :
    ((fireCallback ⟨fun _ => none, [], 0⟩
        (fun x => if x = 1 then some ⟨true, Frequency.daily, [], ⟨9, 0⟩, 0, none, none⟩ else none)
        ⟨true, Frequency.daily, [], ⟨9, 0⟩, 0, none, none⟩ 1 false 5000).store 1).map
        Reminder.lastSent = some none ∧
    liveFor (fireCallback ⟨fun _ => none, [], 0⟩
        (fun x => if x = 1 then some ⟨true, Frequency.daily, [], ⟨9, 0⟩, 0, none, none⟩ else none)
        ⟨true, Frequency.daily, [], ⟨9, 0⟩, 0, none, none⟩ 1 false 5000).sched 1 = [] ∧
    (fireCallback ⟨fun _ => none, [], 0⟩
        (fun x => if x = 1 then some ⟨true, Frequency.daily, [], ⟨9, 0⟩, 0, none, none⟩ else none)
        ⟨true, Frequency.daily, [], ⟨9, 0⟩, 0, none, none⟩ 1 false 5000).errorLogged = true :=
  ⟨rfl, rfl, rfl⟩

/-- C1 (amended): when the Sender call fails, the failure is caught and
logged inside the fire callback (the catch branch runs and the callback
returns normally), but `lastSent` is not updated and no next timer is
installed: scheduler state and storage are returned unchanged, so a
failed delivery halts the recurrence chain until the next external
reconcile. -/
theorem fireCallback_failure_caught (s : SchedulerState) (store : Nat → Option Reminder)
    (r : Reminder) (rid now : Nat) :
    fireCallback s store r rid false now = ⟨s, store, true⟩ :=
  rfl

/-- C10: for a once reminder the fire callback neither installs a new
timer nor removes the registry entry, so the scheduler state is
unchanged and `has(id)` (the `isScheduled` flag) reports for the id
exactly what it reported before the fire, true included. -/
theorem fireCallback_once_keeps_entry (s : SchedulerState) (store : Nat → Option Reminder)
    (r : Reminder) (rid : Nat) (sendOk : Bool) (now : Nat)
    (h : r.frequency = Frequency.once) :
    (fireCallback s store r rid sendOk now).sched = s ∧
    hasJob (fireCallback s store r rid sendOk now).sched rid = hasJob s rid := by
  cases sendOk
  · exact ⟨rfl, rfl⟩
  · refine ⟨?_, ?_⟩
    · simp [fireCallback, h]
    · simp [fireCallback, h]

theorem fireCallback_once_keeps_entry_witness :
    (fireCallback ⟨fun x => if x = 1 then some 0 else none, [⟨0, 1, 5000⟩], 1⟩ (fun _ => none)
        ⟨true, Frequency.once, [], ⟨9, 0⟩, 0, none, none⟩ 1 true 5000).sched =
      ⟨fun x => if x = 1 then some 0 else none, [⟨0, 1, 5000⟩], 1⟩ ∧
    hasJob (fireCallback ⟨fun x => if x = 1 then some 0 else none, [⟨0, 1, 5000⟩], 1⟩
        (fun _ => none) ⟨true, Frequency.once, [], ⟨9, 0⟩, 0, none, none⟩ 1 true 5000).sched 1 =
      hasJob ⟨fun x => if x = 1 then some 0 else none, [⟨0, 1, 5000⟩], 1⟩ 1 :=
  fireCallback_once_keeps_entry ⟨fun x => if x = 1 then some 0 else none, [⟨0, 1, 5000⟩], 1⟩
    (fun _ => none) ⟨true, Frequency.once, [], ⟨9, 0⟩, 0, none, none⟩ 1 true 5000 rfl

/-- C5: for a well-formed scheduler state and an active reminder,
calling `scheduleReminder` twice in immediate succession with no
intervening state change leaves exactly one live timer for that id, and
`has(id)` is true: the cancel-then-install discipline never leaves two
live timers for one id. -/
theorem scheduleReminder_twice_single_timer (s : SchedulerState) (r : Reminder)
    (rid now : Nat) (hwf : WellFormed s) (hact : r.isActive = true) :
    (liveFor (scheduleReminder (scheduleReminder s r rid now) r rid now) rid).length = 1 ∧
    hasJob (scheduleReminder (scheduleReminder s r rid now) r rid now) rid = true := by
  obtain ⟨hwf1, -, -⟩ := scheduleReminder_active s r rid now hwf hact
  obtain ⟨-, hlen, hhas⟩ :=
    scheduleReminder_active (scheduleReminder s r rid now) r rid now hwf1 hact
  exact ⟨hlen, hhas⟩

theorem scheduleReminder_twice_single_timer_witness :
    (liveFor (scheduleReminder (scheduleReminder ⟨fun _ => none, [], 0⟩
        ⟨true, Frequency.daily, [], ⟨9, 0⟩, 0, none, none⟩ 1 0)
        ⟨true, Frequency.daily, [], ⟨9, 0⟩, 0, none, none⟩ 1 0) 1).length = 1 ∧
    hasJob (scheduleReminder (scheduleReminder ⟨fun _ => none, [], 0⟩
        ⟨true, Frequency.daily, [], ⟨9, 0⟩, 0, none, none⟩ 1 0)
        ⟨true, Frequency.daily, [], ⟨9, 0⟩, 0, none, none⟩ 1 0) 1 = true := by
  exact scheduleReminder_twice_single_timer ⟨fun _ => none, [], 0⟩
    ⟨true, Frequency.daily, [], ⟨9, 0⟩, 0, none, none⟩ 1 0
    ⟨by simp, by simp, List.Pairwise.nil⟩ rfl

/-- C6: the delete handler cancels any live timer for the id (before
removing the storage record), and upon return `has(id)` is false, no
live timer for the id remains, and the storage record is gone. -/
theorem deleteReminder_cancels (s : SchedulerState) (store : Nat → Option Reminder)
    (rid : Nat) (r : Reminder) (hwf : WellFormed s) (hs : store rid = some r) :
    hasJob (deleteReminderHandler s store rid).1 rid = false ∧
    liveFor (deleteReminderHandler s store rid).1 rid = [] ∧
    (deleteReminderHandler s store rid).2 rid = none := by
  unfold deleteReminderHandler
  rw [hs]
  refine ⟨?_, ?_, ?_⟩
  · unfold hasJob
    rw [cancelReminderSchedule_jobsMap_self]
    rfl
  · exact cancelReminderSchedule_liveFor s rid hwf.1
  · simp

theorem deleteReminder_cancels_witness :
    hasJob (deleteReminderHandler ⟨fun x => if x = 1 then some 0 else none, [⟨0, 1, 5000⟩], 1⟩
      (fun x => if x = 1 then some ⟨true, Frequency.daily, [], ⟨9, 0⟩, 0, none, none⟩ else none)
      1).1 1 = false ∧
    liveFor (deleteReminderHandler ⟨fun x => if x = 1 then some 0 else none, [⟨0, 1, 5000⟩], 1⟩
      (fun x => if x = 1 then some ⟨true, Frequency.daily, [], ⟨9, 0⟩, 0, none, none⟩ else none)
      1).1 1 = [] ∧
    (deleteReminderHandler ⟨fun x => if x = 1 then some 0 else none, [⟨0, 1, 5000⟩], 1⟩
      (fun x => if x = 1 then some ⟨true, Frequency.daily, [], ⟨9, 0⟩, 0, none, none⟩ else none)
      1).2 1 = none := by
  exact deleteReminder_cancels ⟨fun x => if x = 1 then some 0 else none, [⟨0, 1, 5000⟩], 1⟩
    (fun x => if x = 1 then some ⟨true, Frequency.daily, [], ⟨9, 0⟩, 0, none, none⟩ else none)
    1 ⟨true, Frequency.daily, [], ⟨9, 0⟩, 0, none, none⟩
    ⟨by simp, by simp, by simp⟩ (by simp)

/-- C9: whenever `nextSendTime` returns a non-null instant, that instant
is not before now, its wall-clock hour and minute equal the configured
time of day (hour and minute within the schema bounds), and its seconds
and milliseconds components are zero. -/
theorem nextSendTime_aligned (r : Reminder) (now t : Nat)
    (hh : r.time.hour ≤ 23) (hm : r.time.minute ≤ 59)
    (ht : nextSendTime r now = some t) :
    now ≤ t ∧ getHoursOf t = r.time.hour ∧ getMinutesOf t = r.time.minute ∧
    getSecondsOf t = 0 ∧ getMillisecondsOf t = 0 := by
  by_cases hact : r.isActive = false
  · rw [nextSendTime, if_pos hact] at ht
    exact absurd ht (by simp)
  · unfold nextSendTime at ht
    rw [if_neg hact] at ht
    simp only [Option.some.injEq] at ht
    by_cases hwk : r.frequency = Frequency.weekly ∧ 0 < r.daysOfWeek.length
    · rw [if_pos hwk] at ht
      by_cases hlt : setHours now r.time.hour r.time.minute < now
      · rw [if_pos hlt] at ht
        obtain ⟨k, hk⟩ := weeklyAdvance_eq_add r.daysOfWeek 7
          (setHours now r.time.hour r.time.minute + msPerDay)
        rw [hk] at ht
        refine nextSendTime_aligned_aux now t r.time.hour r.time.minute (k + 1) hh hm ?_
          (Or.inr (by omega))
        rw [← ht]
        unfold setHours
        ring
      · rw [if_neg hlt] at ht
        obtain ⟨k, hk⟩ := weeklyAdvance_eq_add r.daysOfWeek 7
          (setHours now r.time.hour r.time.minute)
        rw [hk] at ht
        refine nextSendTime_aligned_aux now t r.time.hour r.time.minute k hh hm ?_
          (Or.inl (by unfold setHours at hlt; omega))
        rw [← ht]
        unfold setHours
        ring
    · rw [if_neg hwk] at ht
      by_cases hlt : setHours now r.time.hour r.time.minute < now
      · rw [if_pos hlt] at ht
        refine nextSendTime_aligned_aux now t r.time.hour r.time.minute 1 hh hm ?_
          (Or.inr (by omega))
        rw [← ht]
        unfold setHours
        ring
      · rw [if_neg hlt] at ht
        refine nextSendTime_aligned_aux now t r.time.hour r.time.minute 0 hh hm ?_
          (Or.inl (by unfold setHours at hlt; omega))
        rw [← ht]
        unfold setHours
        ring

theorem nextSendTime_aligned_witness :
    (0 : Nat) ≤ 32400000 ∧ getHoursOf 32400000 = 9 ∧ getMinutesOf 32400000 = 0 ∧
    getSecondsOf 32400000 = 0 ∧ getMillisecondsOf 32400000 = 0 :=
  nextSendTime_aligned ⟨true, Frequency.daily, [], ⟨9, 0⟩, 0, none, none⟩ 0 32400000
    (by decide) (by decide) (by decide)
